import Mathlib

/-!
Shallow embedding of the dynomite-derive code generator
(src/dynomite-derive/src/lib.rs) and of the code it generates.

The crate is a procedural macro: given a struct declaration whose fields
carry `#[dynomite(...)]` annotations, it emits
  * `impl From<Name> for Attributes` (serialization, `get_to_attribute_map_function`),
  * `impl FromAttributes for Name` (deserialization, `get_from_attributes_function`),
  * for `derive(Item)`: an `Item` impl whose `key()` projects the key fields
    (`get_item_trait` / `get_key_inserter`) and a `NameKey` struct
    (`get_key_struct`), guarded by the partition-key cardinality check in
    `make_dynomite_item`,
  * for `derive(Attribute)` on enums: string conversions (`make_dynomite_attr`).

We embed the field classification (which is literal source code) and the
runtime semantics of the emitted code.  Field values are heterogeneous in
Rust; we model a field's Rust type by a parameter type `V` together with the
per-type `Attribute::into_attr` / `Attribute::from_attr` / `Default::default`
functions carried alongside each field (`FieldSem`).  The attribute map
(`HashMap<String, AttributeValue>`) is modelled as an association list with
HashMap semantics: `lookup` finds the binding, `insert` replaces, `remove`
returns the binding and deletes it.
-/

namespace Dynomite

/-- The `AttributeValue` struct of the external runtime (rusoto shape): ten
optional components `b, bool, bs, l, m, n, ns, null, s, ss`.  It is recursive
through `l` (lists) and `m` (maps), so it is an inductive with one
constructor. -/
inductive AttributeValue where
  | mk
    (b : Option (List Nat))
    (bool : Option Bool)
    (bs : Option (List (List Nat)))
    (l : Option (List AttributeValue))
    (m : Option (List (String × AttributeValue)))
    (n : Option String)
    (ns : Option (List String))
    (null : Option Bool)
    (s : Option String)
    (ss : Option (List String))

/-- Projection of the string component `s` of an `AttributeValue`. -/
def AttributeValue.s : AttributeValue → Option String
  | .mk _ _ _ _ _ _ _ _ s _ => s

/-- Value of `AttributeValue::default()`: every component absent. -/
def AttributeValue.dfault : AttributeValue :=
  .mk none none none none none none none none none none

/-- Value of `AttributeValue { s: Some(str), ..Default::default() }`, as built
by the generated enum `into_attr` (lib.rs lines 210-218). -/
def string_attr (str : String) : AttributeValue :=
  .mk none none none none none none none none (some str) none

/-- The `dynomite::AttributeError` taxonomy exactly as referenced by the
generated code: `MissingField { name }`, `InvalidType`, `InvalidFormat`. -/
inductive AttributeError where
  | InvalidType
  | InvalidFormat
  | MissingField (name : String)
deriving DecidableEq, Repr

/-- A parsed `#[dynomite(...)]` field annotation.  The `attr` module (the
variants are matched in lib.rs: `Attr::PartitionKey`, `Attr::SortKey`,
`Attr::Rename(_, lit)`, `Attr::Default`). -/
inductive Attr where
  | partitionKey
  | sortKey
  | rename (value : String)
  | dfault
deriving DecidableEq, Repr

/-- A named struct field together with its parsed dynomite annotations:
the data of `ItemField` (lib.rs lines 49-52). -/
structure FieldDecl where
  name : String
  attrs : List Attr
deriving DecidableEq, Repr

/-- `ItemField::is_partition_key` (lib.rs lines 60-64). -/
def is_partition_key (f : FieldDecl) : Bool :=
  f.attrs.any fun a => match a with
    | .partitionKey => true
    | _ => false

/-- `ItemField::is_sort_key` (lib.rs lines 66-70). -/
def is_sort_key (f : FieldDecl) : Bool :=
  f.attrs.any fun a => match a with
    | .sortKey => true
    | _ => false

/-- `ItemField::is_default_when_absent` (lib.rs lines 72-76). -/
def is_default_when_absent (f : FieldDecl) : Bool :=
  f.attrs.any fun a => match a with
    | .dfault => true
    | _ => false

/-- The `find_map` part of `ItemField::deser_name`: the value of the first
rename annotation, if any (lib.rs lines 80-85). -/
def first_rename (attrs : List Attr) : Option String :=
  attrs.findSome? fun a => match a with
    | .rename v => some v
    | _ => none

/-- `ItemField::deser_name` (lib.rs lines 78-93): the value of the first
rename annotation, else the declared field name. -/
def deser_name (f : FieldDecl) : String :=
  match first_rename f.attrs with
  | some v => v
  | none => f.name

/-- The attribute map `dynomite::Attributes = HashMap<String, AttributeValue>`,
modelled as an association list read through `Attributes.lookup`. -/
abbrev Attributes := List (String × AttributeValue)

/-- Map lookup: the value bound to `k`, first binding wins. -/
def Attributes.lookup (m : Attributes) (k : String) : Option AttributeValue :=
  match m with
  | [] => none
  | (k', v) :: rest => if k' = k then some v else Attributes.lookup rest k

/-- Deletion of every binding of `k`, as `HashMap::remove` leaves the map. -/
def Attributes.erase (m : Attributes) (k : String) : Attributes :=
  match m with
  | [] => []
  | (k', v) :: rest =>
    if k' = k then Attributes.erase rest k
    else (k', v) :: Attributes.erase rest k

/-- `HashMap::insert`: bind `k` to `v`, replacing any previous binding. -/
def Attributes.insert (m : Attributes) (k : String) (v : AttributeValue) : Attributes :=
  (k, v) :: Attributes.erase m k

/-- A field together with the runtime semantics of its Rust type: the type's
`Attribute::into_attr`, `Attribute::from_attr` and `Default::default`, which
the generated code calls but does not define. -/
structure FieldSem (V : Type) where
  decl : FieldDecl
  into_attr : V → AttributeValue
  from_attr : AttributeValue → Except AttributeError V
  defaultVal : V

/-- Semantics of the generated `fn from(item: Name) -> Attributes`
(`get_to_attribute_map_function`, lib.rs lines 364-392): starting from an
empty map, for each field in declaration order insert the converted value
under the field's `deser_name`. -/
def to_attribute_map {V : Type} (fields : List (FieldSem V × V)) : Attributes :=
  fields.foldl
    (fun values fv =>
      Attributes.insert values (deser_name fv.1.decl) (fv.1.into_attr fv.2))
    []

/-- Semantics of one field initializer inside the generated `from_attrs`
(`get_from_attributes_function`, lib.rs lines 424-444): remove the entry under
the field's `deser_name`; a default-when-absent field maps a missing entry to
`Default::default()`, any other field maps it to `MissingField`; a present
entry is converted with `Attribute::from_attr`, whose failure propagates.
Returns the field's value and the map left for the following fields. -/
def field_from_attrs {V : Type} (f : FieldSem V) (attrs : Attributes) :
    Except AttributeError (V × Attributes) :=
  let nm := deser_name f.decl
  if is_default_when_absent f.decl then
    match Attributes.lookup attrs nm with
    | some a =>
      match f.from_attr a with
      | .ok v => .ok (v, Attributes.erase attrs nm)
      | .error e => .error e
    | none => .ok (f.defaultVal, attrs)
  else
    match Attributes.lookup attrs nm with
    | some a =>
      match f.from_attr a with
      | .ok v => .ok (v, Attributes.erase attrs nm)
      | .error e => .error e
    | none => .error (AttributeError.MissingField nm)

/-- The field initializers of the generated `from_attrs`, run left to right in
declaration order over the shared mutable map, each `?` short-circuiting
(lib.rs lines 446-452).  Returns the field values and the final map. -/
def from_attrs_aux {V : Type} (fields : List (FieldSem V)) (attrs : Attributes) :
    Except AttributeError (List V × Attributes) :=
  match fields with
  | [] => .ok ([], attrs)
  | f :: rest =>
    match field_from_attrs f attrs with
    | .error e => .error e
    | .ok (v, attrs2) =>
      match from_attrs_aux rest attrs2 with
      | .error e => .error e
      | .ok (vs, attrs3) => .ok (v :: vs, attrs3)

/-- Semantics of the generated `fn from_attrs(mut attrs: Attributes) ->
Result<Self, AttributeError>`: the record's field values in declaration
order. -/
def from_attrs {V : Type} (fields : List (FieldSem V)) (attrs : Attributes) :
    Except AttributeError (List V) :=
  match from_attrs_aux fields attrs with
  | .ok (vs, _) => .ok vs
  | .error e => .error e

/-- The fields of the generated `NameKey` struct (`get_key_struct`, lib.rs
lines 546-592): `none` when no field is a partition key (nothing is emitted);
otherwise the first partition-key field followed by the first sort-key field
when one exists.  Each field is carried over whole (`field.field.clone()`),
so it keeps all its annotations. -/
def key_struct_fields (fields : List FieldDecl) : Option (List FieldDecl) :=
  (fields.find? is_partition_key).map fun pk =>
    match fields.find? is_sort_key with
    | some sk => [pk, sk]
    | none => [pk]

/-- The name of the generated key struct: the record name suffixed `Key`. -/
def key_struct_name (name : String) : String :=
  name ++ "Key"

/-- Semantics of the generated `fn key(&self)` (`get_item_trait` /
`get_key_inserter`, lib.rs lines 492-537): `none` when no field is a
partition key (no `Item` impl is emitted); otherwise a fresh map holding the
first partition-key field's converted value under its `deser_name`, then the
first sort-key field's likewise when one exists. -/
def key_map {V : Type} (fields : List (FieldSem V × V)) : Option Attributes :=
  (fields.find? fun fv => is_partition_key fv.1.decl).map fun pk =>
    let keys : Attributes := []
    let keys := Attributes.insert keys (deser_name pk.1.decl) (pk.1.into_attr pk.2)
    match fields.find? fun fv => is_sort_key fv.1.decl with
    | some sk => Attributes.insert keys (deser_name sk.1.decl) (sk.1.into_attr sk.2)
    | none => keys

/-- The count of partition-key fields checked by `make_dynomite_item`
(lib.rs line 308). -/
def partition_key_count (fields : List FieldDecl) : Nat :=
  (fields.filter is_partition_key).length

/-- The build error text of `make_dynomite_item` (lib.rs lines 310-316). -/
def item_error_message (name : String) (count : Nat) : String :=
  "All Item\x27s must declare one and only one partition_key. The `" ++ name
    ++ "` Item declared " ++ toString count

/-- The structural behaviour of `make_dynomite_item` (lib.rs lines 301-330):
fail with the cardinality message unless exactly one field is a partition
key, else succeed; the structural artifact of success is the key struct
(its name and fields), the behavioural artifacts being `to_attribute_map`,
`from_attrs` and `key_map` above (every other code path in the source
returns `Ok`). -/
def make_dynomite_item (name : String) (fields : List FieldDecl) :
    Except String (String × Option (List FieldDecl)) :=
  if partition_key_count fields = 1 then
    .ok (key_struct_name name, key_struct_fields fields)
  else
    .error (item_error_message name (partition_key_count fields))

/-- The match arms of the generated enum `from_attr` (`make_dynomite_attr`,
lib.rs lines 201-206, 219-225): try each variant name in declaration order,
returning its case on the first exact match, else `InvalidFormat`.  A case is
identified by its index in the variant list. -/
def match_variant (variants : List String) (str : String) :
    Except AttributeError Nat :=
  match variants with
  | [] => .error AttributeError.InvalidFormat
  | v :: rest =>
    if v = str then .ok 0
    else
      match match_variant rest str with
      | .ok i => .ok (i + 1)
      | .error e => .error e

/-- Semantics of the generated enum `into_attr` (lib.rs lines 210-218):
a string attribute holding the case's literal variant name. -/
def enum_into_attr (variants : List String) (i : Nat) (h : i < variants.length) :
    AttributeValue :=
  string_attr (variants.get ⟨i, h⟩)

/-- Semantics of the generated enum `from_attr` (lib.rs lines 219-225):
`value.s.ok_or(InvalidType)` then the match over the variant names. -/
def enum_from_attr (variants : List String) (v : AttributeValue) :
    Except AttributeError Nat :=
  match AttributeValue.s v with
  | none => .error AttributeError.InvalidType
  | some str => match_variant variants str

/-! ### Map lemmas -/

/-- Folding a list of bindings into a map, insertion by insertion. -/
def insert_many (m : Attributes) (l : List (String × AttributeValue)) : Attributes :=
  l.foldl (fun acc kv => Attributes.insert acc kv.1 kv.2) m

theorem lookup_erase (m : Attributes) (k k' : String) :
    Attributes.lookup (Attributes.erase m k) k' =
      if k' = k then none else Attributes.lookup m k' := by
  induction m with
  | nil => simp [Attributes.erase, Attributes.lookup]
  | cons kv rest ih =>
    obtain ⟨a, b⟩ := kv
    simp only [Attributes.erase, Attributes.lookup]
    by_cases hak : a = k
    · rw [if_pos hak, ih]
      by_cases hk : k' = k
      · simp [hk]
      · have hak' : ¬ a = k' := by
          rw [hak]
          exact fun h => hk h.symm
        simp [hk, hak']
    · rw [if_neg hak]
      show Attributes.lookup ((a, b) :: Attributes.erase rest k) k' = _
      simp only [Attributes.lookup]
      by_cases hak' : a = k'
      · have hk : ¬ k' = k := by
          rw [← hak']
          exact hak
        simp [hak', hk]
      · simp [hak', ih]

theorem lookup_insert (m : Attributes) (k k' : String) (v : AttributeValue) :
    Attributes.lookup (Attributes.insert m k v) k' =
      if k' = k then some v else Attributes.lookup m k' := by
  by_cases hk : k' = k
  · simp [Attributes.insert, Attributes.lookup, hk]
  · have hk' : k ≠ k' := fun h => hk h.symm
    simp [Attributes.insert, Attributes.lookup, hk, hk', lookup_erase]

theorem lookup_insert_many_notin (l : List (String × AttributeValue))
    (m : Attributes) (k : String) (h : ∀ kv ∈ l, kv.1 ≠ k) :
    Attributes.lookup (insert_many m l) k = Attributes.lookup m k := by
  induction l generalizing m with
  | nil => rfl
  | cons kv rest ih =>
    have hkv : kv.1 ≠ k := h kv (List.mem_cons_self kv rest)
    have hrest : ∀ kw ∈ rest, kw.1 ≠ k := fun kw hw => h kw (List.mem_cons_of_mem kv hw)
    calc Attributes.lookup (insert_many (Attributes.insert m kv.1 kv.2) rest) k
        = Attributes.lookup (Attributes.insert m kv.1 kv.2) k := ih _ hrest
      _ = Attributes.lookup m k := by
          rw [lookup_insert, if_neg (show ¬ k = kv.1 from fun hh => hkv hh.symm)]

theorem lookup_insert_many_mem (l : List (String × AttributeValue))
    (m : Attributes) (k : String) (v : AttributeValue)
    (hnd : (l.map Prod.fst).Nodup) (hmem : (k, v) ∈ l) :
    Attributes.lookup (insert_many m l) k = some v := by
  induction l generalizing m with
  | nil => cases hmem
  | cons kv rest ih =>
    have hnd' : kv.1 ∉ rest.map Prod.fst ∧ (rest.map Prod.fst).Nodup := by
      simpa [List.nodup_cons] using hnd
    rcases List.mem_cons.mp hmem with heq | hrest
    · subst heq
      have hnotin : ∀ kw ∈ rest, kw.1 ≠ k := by
        intro kw hw hkk
        have hk : k ∈ rest.map Prod.fst := by
          rw [← hkk]
          exact List.mem_map_of_mem Prod.fst hw
        exact hnd'.1 hk
      calc Attributes.lookup (insert_many (Attributes.insert m k v) rest) k
          = Attributes.lookup (Attributes.insert m k v) k :=
            lookup_insert_many_notin rest _ k hnotin
        _ = some v := by simp [lookup_insert]
    · exact ih _ hnd'.2 hrest

theorem to_attribute_map_eq {V : Type} (fields : List (FieldSem V × V)) :
    to_attribute_map fields =
      insert_many []
        (fields.map fun fv => (deser_name fv.1.decl, fv.1.into_attr fv.2)) := by
  simp [to_attribute_map, insert_many, List.foldl_map]

theorem lookup_to_attribute_map {V : Type} (fields : List (FieldSem V × V))
    (fv : FieldSem V × V)
    (hnd : (fields.map fun g => deser_name g.1.decl).Nodup)
    (hmem : fv ∈ fields) :
    Attributes.lookup (to_attribute_map fields) (deser_name fv.1.decl) =
      some (fv.1.into_attr fv.2) := by
  rw [to_attribute_map_eq]
  refine lookup_insert_many_mem _ _ _ _ ?_ ?_
  · rw [List.map_map]
    exact hnd
  · exact List.mem_map_of_mem _ hmem

/-! ### Lemmas about the generated `from_attrs` -/

theorem field_from_attrs_some {V : Type} (f : FieldSem V) (attrs : Attributes)
    (a : AttributeValue)
    (h : Attributes.lookup attrs (deser_name f.decl) = some a) :
    field_from_attrs f attrs =
      match f.from_attr a with
      | .ok v => .ok (v, Attributes.erase attrs (deser_name f.decl))
      | .error e => .error e := by
  unfold field_from_attrs
  by_cases hd : is_default_when_absent f.decl <;> simp [hd, h]

theorem field_from_attrs_none_default {V : Type} (f : FieldSem V)
    (attrs : Attributes)
    (hd : is_default_when_absent f.decl = true)
    (h : Attributes.lookup attrs (deser_name f.decl) = none) :
    field_from_attrs f attrs = .ok (f.defaultVal, attrs) := by
  simp [field_from_attrs, hd, h]

theorem field_from_attrs_none_missing {V : Type} (f : FieldSem V)
    (attrs : Attributes)
    (hd : is_default_when_absent f.decl = false)
    (h : Attributes.lookup attrs (deser_name f.decl) = none) :
    field_from_attrs f attrs =
      .error (AttributeError.MissingField (deser_name f.decl)) := by
  simp [field_from_attrs, hd, h]

theorem field_from_attrs_lookup_none {V : Type} (f : FieldSem V)
    (attrs attrs' : Attributes) (v : V) (k : String)
    (h : field_from_attrs f attrs = .ok (v, attrs'))
    (hk : Attributes.lookup attrs k = none) :
    Attributes.lookup attrs' k = none := by
  unfold field_from_attrs at h
  by_cases hd : is_default_when_absent f.decl <;>
    simp [hd] at h <;>
    rcases hl : Attributes.lookup attrs (deser_name f.decl) with _ | a <;>
    simp [hl] at h
  · exact h.2 ▸ hk
  · rcases hc : f.from_attr a with e | w <;> simp [hc] at h
    rw [← h.2, lookup_erase]
    split <;> [rfl; exact hk]
  · rcases hc : f.from_attr a with e | w <;> simp [hc] at h
    rw [← h.2, lookup_erase]
    split <;> [rfl; exact hk]

theorem from_attrs_aux_lookup_none {V : Type} (fields : List (FieldSem V))
    (attrs attrs' : Attributes) (vs : List V) (k : String)
    (h : from_attrs_aux fields attrs = .ok (vs, attrs'))
    (hk : Attributes.lookup attrs k = none) :
    Attributes.lookup attrs' k = none := by
  induction fields generalizing attrs vs with
  | nil =>
    simp [from_attrs_aux] at h
    exact h.2 ▸ hk
  | cons f rest ih =>
    unfold from_attrs_aux at h
    rcases hf : field_from_attrs f attrs with e | ⟨v, attrs2⟩ <;> simp [hf] at h
    rcases hr : from_attrs_aux rest attrs2 with e | ⟨vs2, attrs3⟩ <;> simp [hr] at h
    obtain ⟨h1, h2⟩ := h
    subst h2
    exact ih attrs2 vs2 hr (field_from_attrs_lookup_none f attrs attrs2 v k hf hk)

theorem from_attrs_aux_append_ok {V : Type} (l1 l2 : List (FieldSem V))
    (attrs attrs1 attrs2 : Attributes) (vs1 vs2 : List V)
    (h1 : from_attrs_aux l1 attrs = .ok (vs1, attrs1))
    (h2 : from_attrs_aux l2 attrs1 = .ok (vs2, attrs2)) :
    from_attrs_aux (l1 ++ l2) attrs = .ok (vs1 ++ vs2, attrs2) := by
  induction l1 generalizing attrs vs1 with
  | nil =>
    simp [from_attrs_aux] at h1
    obtain ⟨ha, hb⟩ := h1
    subst ha
    subst hb
    simpa using h2
  | cons f rest ih =>
    unfold from_attrs_aux at h1
    rcases hf : field_from_attrs f attrs with e | ⟨v, m2⟩ <;> simp [hf] at h1
    rcases hr : from_attrs_aux rest m2 with e | ⟨vsr, m3⟩ <;> simp [hr] at h1
    obtain ⟨ha, hb⟩ := h1
    subst hb
    simp only [List.cons_append]
    unfold from_attrs_aux
    simp [hf, ih m2 vsr hr, ← ha]

theorem from_attrs_aux_append_err {V : Type} (l1 l2 : List (FieldSem V))
    (attrs attrs1 : Attributes) (vs1 : List V) (e : AttributeError)
    (h1 : from_attrs_aux l1 attrs = .ok (vs1, attrs1))
    (h2 : from_attrs_aux l2 attrs1 = .error e) :
    from_attrs_aux (l1 ++ l2) attrs = .error e := by
  induction l1 generalizing attrs vs1 with
  | nil =>
    simp [from_attrs_aux] at h1
    obtain ⟨ha, hb⟩ := h1
    subst hb
    simpa using h2
  | cons f rest ih =>
    unfold from_attrs_aux at h1
    rcases hf : field_from_attrs f attrs with e' | ⟨v, m2⟩ <;> simp [hf] at h1
    rcases hr : from_attrs_aux rest m2 with e' | ⟨vsr, m3⟩ <;> simp [hr] at h1
    obtain ⟨ha, hb⟩ := h1
    subst hb
    simp only [List.cons_append]
    unfold from_attrs_aux
    simp [hf, ih m2 vsr hr]

theorem from_attrs_aux_present {V : Type} (zf : List (FieldSem V × V))
    (m : Attributes)
    (hnd : (zf.map fun g => deser_name g.1.decl).Nodup)
    (hpres : ∀ fv ∈ zf, ∃ a,
      Attributes.lookup m (deser_name fv.1.decl) = some a ∧
        fv.1.from_attr a = .ok fv.2) :
    ∃ m', from_attrs_aux (zf.map Prod.fst) m = .ok (zf.map Prod.snd, m') := by
  induction zf generalizing m with
  | nil => exact ⟨m, rfl⟩
  | cons fv rest ih =>
    obtain ⟨a, hla, hca⟩ := hpres fv (List.mem_cons_self fv rest)
    have hstep : field_from_attrs fv.1 m =
        .ok (fv.2, Attributes.erase m (deser_name fv.1.decl)) := by
      rw [field_from_attrs_some fv.1 m a hla, hca]
    have hnd' : deser_name fv.1.decl ∉ (rest.map fun g => deser_name g.1.decl) ∧
        (rest.map fun g => deser_name g.1.decl).Nodup := by
      simpa [List.nodup_cons] using hnd
    have hpres' : ∀ gv ∈ rest, ∃ b,
        Attributes.lookup (Attributes.erase m (deser_name fv.1.decl))
          (deser_name gv.1.decl) = some b ∧ gv.1.from_attr b = .ok gv.2 := by
      intro gv hg
      obtain ⟨b, hlb, hcb⟩ := hpres gv (List.mem_cons_of_mem _ hg)
      refine ⟨b, ?_, hcb⟩
      rw [lookup_erase, if_neg, hlb]
      intro hh
      exact hnd'.1 (hh ▸ List.mem_map_of_mem (fun g => deser_name g.1.decl) hg)
    obtain ⟨m', hm'⟩ := ih _ hnd'.2 hpres'
    refine ⟨m', ?_⟩
    simp only [List.map_cons]
    unfold from_attrs_aux
    simp [hstep, hm']

theorem find?_eq_head?_filter {α : Type} (p : α → Bool) (l : List α) :
    l.find? p = (l.filter p).head? := by
  induction l with
  | nil => rfl
  | cons a t ih =>
    simp only [List.find?, List.filter]
    cases h : p a
    · exact ih
    · rfl

/-! ### A concrete field semantics used as witness material: a `Nat` field
whose Rust type serializes into the binary component of an attribute. -/

/-- Runtime semantics of a concrete numeric field type for witnesses. -/
def natFieldSem (d : FieldDecl) : FieldSem Nat :=
  { decl := d
    into_attr := fun v =>
      AttributeValue.mk (some [v]) none none none none none none none none none
    from_attr := fun a =>
      match a with
      | .mk (some [v]) _ _ _ _ _ _ _ _ _ => .ok v
      | _ => .error AttributeError.InvalidType
    defaultVal := 0 }

/-! ### The claims -/

/-- C1: for every record value whose fields all appear in the serialized map
(their effective external names are pairwise distinct, so no field's entry is
lost to an overwrite), converting the value into an attribute map with the
generated `From<Record>` conversion and back with the generated `from_attrs`
yields `Ok` of the original value, assuming each field type's own `Attribute`
conversion round-trips on the field's value. -/
theorem c1_round_trip {V : Type} (zf : List (FieldSem V × V))
    (hnd : (zf.map fun g => deser_name g.1.decl).Nodup)
    (hrt : ∀ fv ∈ zf, fv.1.from_attr (fv.1.into_attr fv.2) = .ok fv.2) :
    from_attrs (zf.map Prod.fst) (to_attribute_map zf) = .ok (zf.map Prod.snd) := by
  obtain ⟨m', hm'⟩ := from_attrs_aux_present zf (to_attribute_map zf) hnd
    (fun fv hfv =>
      ⟨fv.1.into_attr fv.2, lookup_to_attribute_map zf fv hnd hfv, hrt fv hfv⟩)
  simp [from_attrs, hm']

/-- Witness for C1 on a two-field record (a partition key and a renamed
field). -/
theorem c1_round_trip_witness :
    from_attrs
        [natFieldSem (FieldDecl.mk ("id") [Attr.partitionKey]),
          natFieldSem (FieldDecl.mk ("user_name") [Attr.rename ("userName")])]
        (to_attribute_map
          [(natFieldSem (FieldDecl.mk ("id") [Attr.partitionKey]), 7),
            (natFieldSem (FieldDecl.mk ("user_name") [Attr.rename ("userName")]), 42)]) =
      .ok [7, 42] :=
  c1_round_trip
    [(natFieldSem (FieldDecl.mk ("id") [Attr.partitionKey]), 7),
      (natFieldSem (FieldDecl.mk ("user_name") [Attr.rename ("userName")]), 42)]
    (by decide)
    (by
      intro fv hfv
      rcases List.mem_cons.mp hfv with rfl | hfv
      · rfl
      · rcases List.mem_singleton.mp hfv with rfl
        rfl)

/-- Helper: when every field before `f` converts successfully and the map has
no entry under `f`'s effective external name, a non-default `f` makes the
whole generated `from_attrs` fail with `MissingField` of that name. -/
theorem from_attrs_missing_field {V : Type} (front : List (FieldSem V))
    (f : FieldSem V) (back : List (FieldSem V)) (attrs attrs1 : Attributes)
    (vs : List V)
    (hfront : from_attrs_aux front attrs = .ok (vs, attrs1))
    (habsent : Attributes.lookup attrs (deser_name f.decl) = none)
    (hnodef : is_default_when_absent f.decl = false) :
    from_attrs (front ++ f :: back) attrs =
      .error (AttributeError.MissingField (deser_name f.decl)) := by
  have habs1 : Attributes.lookup attrs1 (deser_name f.decl) = none :=
    from_attrs_aux_lookup_none front attrs attrs1 vs _ hfront habsent
  have hfield := field_from_attrs_none_missing f attrs1 hnodef habs1
  have hmid : from_attrs_aux (f :: back) attrs1 =
      .error (AttributeError.MissingField (deser_name f.decl)) := by
    unfold from_attrs_aux
    rw [hfield]
  have hall := from_attrs_aux_append_err front (f :: back) attrs attrs1 vs _ hfront hmid
  simp [from_attrs, hall]

/-- C4 counterexample: on the two-plain-field record `{a, b}` and the empty
attribute map — which lacks an entry under the non-default field `b`'s
effective external name — the generated `from_attrs` reports the missing
field `a`, not `b`, refuting the claim as stated for field `b`. -/
theorem c4_counterexample :
    is_default_when_absent (FieldDecl.mk ("b") []) = false ∧
      Attributes.lookup ([] : Attributes) (deser_name (FieldDecl.mk ("b") [])) = none ∧
      from_attrs [natFieldSem (FieldDecl.mk ("a") []), natFieldSem (FieldDecl.mk ("b") [])]
          ([] : Attributes) =
        .error (AttributeError.MissingField ("a")) ∧
      ¬ from_attrs [natFieldSem (FieldDecl.mk ("a") []), natFieldSem (FieldDecl.mk ("b") [])]
          ([] : Attributes) =
        .error (AttributeError.MissingField (deser_name (FieldDecl.mk ("b") []))) := by
  refine ⟨rfl, rfl, rfl, ?_⟩
  intro h
  have h2 := (show from_attrs
      [natFieldSem (FieldDecl.mk ("a") []), natFieldSem (FieldDecl.mk ("b") [])]
      ([] : Attributes) =
      .error (AttributeError.MissingField ("a")) from rfl).symm.trans h
  injection h2 with h3
  injection h3 with h4
  exact absurd h4 (by decide)

/-- C4 (amended): for every field without the default-when-absent annotation,
when every field before it in declaration order converts successfully on the
map and the map lacks an entry under the field's effective external name, the
generated `from_attrs` returns a missing-field error carrying that effective
external name. -/
theorem c4_missing_field {V : Type} (front : List (FieldSem V))
    (f : FieldSem V) (back : List (FieldSem V)) (attrs attrs1 : Attributes)
    (vs : List V)
    (hfront : from_attrs_aux front attrs = .ok (vs, attrs1))
    (habsent : Attributes.lookup attrs (deser_name f.decl) = none)
    (hnodef : is_default_when_absent f.decl = false) :
    from_attrs (front ++ f :: back) attrs =
      .error (AttributeError.MissingField (deser_name f.decl)) :=
  from_attrs_missing_field front f back attrs attrs1 vs hfront habsent hnodef

/-- Witness for the amended C4: on the record `{a, b}` and a map holding only
`a`, deserialization fails with a missing-field error naming `b`. -/
theorem c4_missing_field_witness :
    from_attrs [natFieldSem (FieldDecl.mk ("a") []), natFieldSem (FieldDecl.mk ("b") [])]
        [(("a"), AttributeValue.mk (some [7]) none none none none none none none none none)] =
      .error (AttributeError.MissingField ("b")) :=
  c4_missing_field [natFieldSem (FieldDecl.mk ("a") [])]
    (natFieldSem (FieldDecl.mk ("b") [])) []
    [(("a"), AttributeValue.mk (some [7]) none none none none none none none none none)]
    [] [7] rfl rfl rfl

/-- C5: for a default-when-absent field, when every earlier field converts
successfully: a map with no entry under the field's effective external name
makes the generated `from_attrs` put the field type's default value in that
field's position, and an entry present when the field is read whose
conversion fails makes `from_attrs` propagate exactly that failure — the
default is never substituted for a failed conversion. -/
theorem c5_default_when_absent {V : Type} (front : List (FieldSem V))
    (f : FieldSem V) (back : List (FieldSem V)) (attrs attrs1 : Attributes)
    (vs : List V)
    (hdef : is_default_when_absent f.decl = true)
    (hfront : from_attrs_aux front attrs = .ok (vs, attrs1)) :
    (∀ vs2 attrs2, Attributes.lookup attrs (deser_name f.decl) = none →
        from_attrs_aux back attrs1 = .ok (vs2, attrs2) →
        from_attrs (front ++ f :: back) attrs = .ok (vs ++ f.defaultVal :: vs2)) ∧
      ∀ a e, Attributes.lookup attrs1 (deser_name f.decl) = some a →
        f.from_attr a = .error e →
        from_attrs (front ++ f :: back) attrs = .error e := by
  constructor
  · intro vs2 attrs2 habsent hback
    have habs1 : Attributes.lookup attrs1 (deser_name f.decl) = none :=
      from_attrs_aux_lookup_none front attrs attrs1 vs _ hfront habsent
    have hfield := field_from_attrs_none_default f attrs1 hdef habs1
    have hmid : from_attrs_aux (f :: back) attrs1 = .ok (f.defaultVal :: vs2, attrs2) := by
      unfold from_attrs_aux
      simp [hfield, hback]
    have hall := from_attrs_aux_append_ok front (f :: back) attrs attrs1 attrs2 vs _
      hfront hmid
    simp [from_attrs, hall]
  · intro a e hsome herr
    have hfield : field_from_attrs f attrs1 = .error e := by
      rw [field_from_attrs_some f attrs1 a hsome, herr]
    have hmid : from_attrs_aux (f :: back) attrs1 = .error e := by
      unfold from_attrs_aux
      rw [hfield]
    have hall := from_attrs_aux_append_err front (f :: back) attrs attrs1 vs e
      hfront hmid
    simp [from_attrs, hall]

/-- Witness for C5: on the record `{a (default-when-absent), b}`, a map
holding only `b` decodes to the default in `a`'s position; on the
single-field default record `{a}`, a present but unconvertible entry
propagates the conversion failure. -/
theorem c5_default_when_absent_witness :
    from_attrs
        [natFieldSem (FieldDecl.mk ("a") [Attr.dfault]), natFieldSem (FieldDecl.mk ("b") [])]
        [(("b"), AttributeValue.mk (some [7]) none none none none none none none none none)] =
      .ok [0, 7] ∧
    from_attrs [natFieldSem (FieldDecl.mk ("a") [Attr.dfault])]
        [(("a"), string_attr ("oops"))] =
      .error AttributeError.InvalidType := by
  constructor
  · exact (c5_default_when_absent []
      (natFieldSem (FieldDecl.mk ("a") [Attr.dfault]))
      [natFieldSem (FieldDecl.mk ("b") [])]
      [(("b"), AttributeValue.mk (some [7]) none none none none none none none none none)]
      [(("b"), AttributeValue.mk (some [7]) none none none none none none none none none)]
      [] rfl rfl).1 [7] [] rfl rfl
  · exact (c5_default_when_absent []
      (natFieldSem (FieldDecl.mk ("a") [Attr.dfault])) []
      [(("a"), string_attr ("oops"))] [(("a"), string_attr ("oops"))]
      [] rfl rfl).2 (string_attr ("oops")) AttributeError.InvalidType rfl rfl

/-- C6: when every field before `f` converts successfully and `f`'s own
conversion step fails with error `e`, the generated `from_attrs` returns
exactly `e`, whatever the later fields are — the first failure in declaration
order short-circuits and no errors are accumulated. -/
theorem c6_first_error_short_circuits {V : Type} (front : List (FieldSem V))
    (f : FieldSem V) (attrs attrs1 : Attributes) (vs : List V)
    (e : AttributeError)
    (hfront : from_attrs_aux front attrs = .ok (vs, attrs1))
    (hfail : field_from_attrs f attrs1 = .error e) :
    ∀ back : List (FieldSem V), from_attrs (front ++ f :: back) attrs = .error e := by
  intro back
  have hmid : from_attrs_aux (f :: back) attrs1 = .error e := by
    unfold from_attrs_aux
    rw [hfail]
  have hall := from_attrs_aux_append_err front (f :: back) attrs attrs1 vs e hfront hmid
  simp [from_attrs, hall]

/-- Witness for C6: on the record `{a, b, c}` where `b`'s entry is
unconvertible and `c`'s entry is also missing (so `c` would fail too), the
result is exactly `b`'s error. -/
theorem c6_first_error_short_circuits_witness :
    from_attrs
        [natFieldSem (FieldDecl.mk ("a") []), natFieldSem (FieldDecl.mk ("b") []),
          natFieldSem (FieldDecl.mk ("c") [])]
        [(("a"), AttributeValue.mk (some [7]) none none none none none none none none none),
          (("b"), string_attr ("bad"))] =
      .error AttributeError.InvalidType :=
  c6_first_error_short_circuits [natFieldSem (FieldDecl.mk ("a") [])]
    (natFieldSem (FieldDecl.mk ("b") []))
    [(("a"), AttributeValue.mk (some [7]) none none none none none none none none none),
      (("b"), string_attr ("bad"))]
    [(("b"), string_attr ("bad"))] [7] AttributeError.InvalidType rfl rfl
    [natFieldSem (FieldDecl.mk ("c") [])]

/-- C2: generating full item-mapping code succeeds exactly when one field
carries the partition-key annotation, and otherwise fails with the build
error naming the record and the actual partition-key count. -/
theorem c2_partition_key_cardinality (name : String) (fields : List FieldDecl) :
    ((∃ g, make_dynomite_item name fields = .ok g) ↔
        partition_key_count fields = 1) ∧
      (partition_key_count fields ≠ 1 →
        make_dynomite_item name fields =
          .error (item_error_message name (partition_key_count fields))) := by
  unfold make_dynomite_item
  by_cases h : partition_key_count fields = 1 <;> simp [h]

/-- Witness for C2: a one-partition-key record generates, a zero-key record
fails with the counting message. -/
theorem c2_partition_key_cardinality_witness :
    (∃ g, make_dynomite_item ("Person")
        [FieldDecl.mk ("id") [Attr.partitionKey]] = .ok g) ∧
      make_dynomite_item ("Person") ([] : List FieldDecl) =
        .error (item_error_message ("Person") 0) := by
  constructor
  · exact (c2_partition_key_cardinality ("Person")
      [FieldDecl.mk ("id") [Attr.partitionKey]]).1.mpr (by decide)
  · exact (c2_partition_key_cardinality ("Person") ([] : List FieldDecl)).2 (by decide)

/-- C3: for a record with exactly one partition-key field, the generated key
struct has exactly that field when no field is sort-key annotated, and
exactly the (partition, sort) fields in that order when one field is; the key
fields are carried over whole, annotations (rename included) intact. -/
theorem c3_key_struct_shape (fields : List FieldDecl) (p : FieldDecl)
    (hp : fields.filter is_partition_key = [p]) :
    (fields.filter is_sort_key = [] → key_struct_fields fields = some [p]) ∧
      ∀ s, fields.filter is_sort_key = [s] →
        key_struct_fields fields = some [p, s] := by
  have hfind : fields.find? is_partition_key = some p := by
    rw [find?_eq_head?_filter, hp]
    rfl
  constructor
  · intro hs
    have hs' : fields.find? is_sort_key = none := by
      rw [find?_eq_head?_filter, hs]
      rfl
    simp [key_struct_fields, hfind, hs']
  · intro s hs
    have hs' : fields.find? is_sort_key = some s := by
      rw [find?_eq_head?_filter, hs]
      rfl
    simp [key_struct_fields, hfind, hs']

/-- Witness for C3 at two concrete records, one without and one with a
sort key (the sort key renamed, showing annotations are retained). -/
theorem c3_key_struct_shape_witness :
    key_struct_fields
        [FieldDecl.mk ("id") [Attr.partitionKey], FieldDecl.mk ("x") []] =
      some [FieldDecl.mk ("id") [Attr.partitionKey]] ∧
    key_struct_fields
        [FieldDecl.mk ("id") [Attr.partitionKey], FieldDecl.mk ("x") [],
          FieldDecl.mk ("created") [Attr.sortKey, Attr.rename ("createdAt")]] =
      some [FieldDecl.mk ("id") [Attr.partitionKey],
        FieldDecl.mk ("created") [Attr.sortKey, Attr.rename ("createdAt")]] := by
  constructor
  · exact (c3_key_struct_shape
      [FieldDecl.mk ("id") [Attr.partitionKey], FieldDecl.mk ("x") []]
      (FieldDecl.mk ("id") [Attr.partitionKey]) (by decide)).1 (by decide)
  · exact (c3_key_struct_shape
      [FieldDecl.mk ("id") [Attr.partitionKey], FieldDecl.mk ("x") [],
        FieldDecl.mk ("created") [Attr.sortKey, Attr.rename ("createdAt")]]
      (FieldDecl.mk ("id") [Attr.partitionKey]) (by decide)).2
      (FieldDecl.mk ("created") [Attr.sortKey, Attr.rename ("createdAt")]) (by decide)

theorem match_variant_get (variants : List String) (i : Nat)
    (h : i < variants.length) (hnd : variants.Nodup) :
    match_variant variants (variants.get ⟨i, h⟩) = .ok i := by
  induction variants generalizing i with
  | nil => exact absurd h (Nat.not_lt_zero i)
  | cons v rest ih =>
    cases i with
    | zero => simp [match_variant]
    | succ j =>
      have hj : j < rest.length := Nat.lt_of_succ_lt_succ h
      have hget : (v :: rest).get ⟨j + 1, h⟩ = rest.get ⟨j, hj⟩ := rfl
      have hne : ¬ v = rest.get ⟨j, hj⟩ := by
        intro hv
        exact (List.nodup_cons.mp hnd).1 (hv ▸ List.get_mem rest j hj)
      rw [hget]
      show (if v = rest.get ⟨j, hj⟩ then Except.ok 0
        else match match_variant rest (rest.get ⟨j, hj⟩) with
          | .ok i => .ok (i + 1)
          | .error e => .error e) = Except.ok (j + 1)
      rw [if_neg hne, ih j hj (List.nodup_cons.mp hnd).2]

theorem match_variant_notmem (variants : List String) (str : String)
    (h : str ∉ variants) :
    match_variant variants str = .error AttributeError.InvalidFormat := by
  induction variants with
  | nil => rfl
  | cons v rest ih =>
    have hv : ¬ v = str := fun hv => h (hv ▸ List.mem_cons_self v rest)
    simp [match_variant, hv, ih fun hm => h (List.mem_cons_of_mem v hm)]

/-- C7: for a simple enumeration with distinct case names, serializing any
case yields a string attribute holding that case's literal name and
deserializing it returns the case; a string attribute matching no case name
(comparison exact) deserializes to `InvalidFormat`; an attribute without a
string component deserializes to `InvalidType`. -/
theorem c7_enum_mapping (variants : List String) (hnd : variants.Nodup) :
    (∀ i (h : i < variants.length),
        enum_into_attr variants i h = string_attr (variants.get ⟨i, h⟩) ∧
          enum_from_attr variants (enum_into_attr variants i h) = .ok i) ∧
      (∀ str, str ∉ variants →
        enum_from_attr variants (string_attr str) =
          .error AttributeError.InvalidFormat) ∧
      ∀ v : AttributeValue, AttributeValue.s v = none →
        enum_from_attr variants v = .error AttributeError.InvalidType := by
  refine ⟨fun i h => ⟨rfl, ?_⟩, fun str hstr => ?_, fun v hv => ?_⟩
  · exact match_variant_get variants i h hnd
  · exact match_variant_notmem variants str hstr
  · simp [enum_from_attr, hv]

/-- Witness for C7 on the enum `{Red, Green}`: round-trip of the second case,
a bad value, and a non-string attribute. -/
theorem c7_enum_mapping_witness :
    enum_from_attr [("Red"), ("Green")]
        (enum_into_attr [("Red"), ("Green")] 1 (by decide)) = .ok 1 ∧
      enum_from_attr [("Red"), ("Green")] (string_attr ("Blue")) =
        .error AttributeError.InvalidFormat ∧
      enum_from_attr [("Red"), ("Green")] AttributeValue.dfault =
        .error AttributeError.InvalidType := by
  refine ⟨?_, ?_, ?_⟩
  · exact ((c7_enum_mapping [("Red"), ("Green")] (by decide)).1 1 (by decide)).2
  · exact (c7_enum_mapping [("Red"), ("Green")] (by decide)).2.1 ("Blue") (by decide)
  · exact (c7_enum_mapping [("Red"), ("Green")] (by decide)).2.2
      AttributeValue.dfault rfl

/-- C8: for a field whose rename annotation carries value `x` (the annotation
`deser_name` resolves), every generated path keys the field under `x`: its
effective external name is `x`, serialization inserts its converted value
under `x`, deserialization reports a missing field as `x`, and — when it is
a key field, the partition-key field or the sort-key field — key projection
inserts its value under `x` (`get_key_inserter` serves both insert sites). -/
theorem c8_rename_propagation {V : Type} (fsem : FieldSem V) (v : V)
    (x : String) (hr : first_rename fsem.decl.attrs = some x) :
    deser_name fsem.decl = x ∧
      (∀ zf : List (FieldSem V × V), (fsem, v) ∈ zf →
        ((zf.map fun g => deser_name g.1.decl).Nodup) →
        Attributes.lookup (to_attribute_map zf) x = some (fsem.into_attr v)) ∧
      (∀ front back attrs attrs1 vs,
        from_attrs_aux front attrs = .ok (vs, attrs1) →
        Attributes.lookup attrs x = none →
        is_default_when_absent fsem.decl = false →
        from_attrs (front ++ fsem :: back) attrs =
          .error (AttributeError.MissingField x)) ∧
      (∀ zf : List (FieldSem V × V),
        (zf.find? fun g => is_partition_key g.1.decl) = some (fsem, v) →
        (∀ g ∈ zf, is_sort_key g.1.decl = true → deser_name g.1.decl ≠ x) →
        ∃ km, key_map zf = some km ∧
          Attributes.lookup km x = some (fsem.into_attr v)) ∧
      ∀ (zf : List (FieldSem V × V)) (pf : FieldSem V × V),
        (zf.find? fun g => is_partition_key g.1.decl) = some pf →
        (zf.find? fun g => is_sort_key g.1.decl) = some (fsem, v) →
        ∃ km, key_map zf = some km ∧
          Attributes.lookup km x = some (fsem.into_attr v) := by
  have hdn : deser_name fsem.decl = x := by
    simp [deser_name, hr]
  refine ⟨hdn, fun zf hmem hnd => ?_, fun front back attrs attrs1 vs hfront habs hnodef => ?_,
    fun zf hfind hsort => ?_, fun zf pf hfindpk hfindsk => ?_⟩
  · rw [← hdn]
    exact lookup_to_attribute_map zf (fsem, v) hnd hmem
  · rw [← hdn] at habs ⊢
    exact from_attrs_missing_field front fsem back attrs attrs1 vs hfront habs hnodef
  · unfold key_map
    rw [hfind, Option.map_some']
    rcases hsk : zf.find? (fun g => is_sort_key g.1.decl) with _ | sk
    · refine ⟨_, rfl, ?_⟩
      simp only [hsk, hdn]
      rw [lookup_insert, if_pos rfl]
    · have hskmem : sk ∈ zf := List.mem_of_find?_eq_some hsk
      have hsksort : is_sort_key sk.1.decl = true := by
        simpa using List.find?_some hsk
      have hskne : deser_name sk.1.decl ≠ x := hsort sk hskmem hsksort
      refine ⟨_, rfl, ?_⟩
      simp only [hsk, hdn]
      rw [lookup_insert, if_neg fun hh => hskne hh.symm, lookup_insert, if_pos rfl]
  · unfold key_map
    rw [hfindpk, Option.map_some']
    refine ⟨_, rfl, ?_⟩
    simp only [hfindsk, hdn]
    rw [lookup_insert, if_pos rfl]

/-- Witness for C8: a renamed partition-key field keyed under `actualName` in
all three paths on a one-field record, and a renamed sort-key field keyed
under `actualName` in key projection on a two-field record. -/
theorem c8_rename_propagation_witness :
    deser_name (FieldDecl.mk ("real_name") [Attr.partitionKey, Attr.rename ("actualName")]) =
        ("actualName") ∧
      Attributes.lookup
          (to_attribute_map
            [(natFieldSem (FieldDecl.mk ("real_name")
                [Attr.partitionKey, Attr.rename ("actualName")]), 7)])
          ("actualName") =
        some (AttributeValue.mk (some [7]) none none none none none none none none none) ∧
      from_attrs
          [natFieldSem (FieldDecl.mk ("real_name")
            [Attr.partitionKey, Attr.rename ("actualName")])]
          ([] : Attributes) =
        .error (AttributeError.MissingField ("actualName")) ∧
      (∃ km, key_map
            [(natFieldSem (FieldDecl.mk ("real_name")
                [Attr.partitionKey, Attr.rename ("actualName")]), 7)] =
          some km ∧
        Attributes.lookup km ("actualName") =
          some (AttributeValue.mk (some [7]) none none none none none none none none none)) ∧
      ∃ km, key_map
            [(natFieldSem (FieldDecl.mk ("id") [Attr.partitionKey]), 7),
              (natFieldSem (FieldDecl.mk ("created")
                [Attr.sortKey, Attr.rename ("actualName")]), 8)] =
          some km ∧
        Attributes.lookup km ("actualName") =
          some (AttributeValue.mk (some [8]) none none none none none none none none none) := by
  obtain ⟨h1, h2, h3, h4, h5⟩ := c8_rename_propagation
    (natFieldSem (FieldDecl.mk ("real_name") [Attr.partitionKey, Attr.rename ("actualName")]))
    7 ("actualName") rfl
  refine ⟨h1, ?_, ?_, ?_, ?_⟩
  · exact h2 [(natFieldSem (FieldDecl.mk ("real_name")
      [Attr.partitionKey, Attr.rename ("actualName")]), 7)]
      (List.mem_singleton.mpr rfl) (by decide)
  · exact h3 [] [] ([] : Attributes) ([] : Attributes) [] rfl rfl rfl
  · exact h4 [(natFieldSem (FieldDecl.mk ("real_name")
      [Attr.partitionKey, Attr.rename ("actualName")]), 7)] rfl
      (by
        intro g hg hs
        rcases List.mem_singleton.mp hg with rfl
        exact absurd hs (by decide))
  · exact (c8_rename_propagation
      (natFieldSem (FieldDecl.mk ("created") [Attr.sortKey, Attr.rename ("actualName")]))
      8 ("actualName") rfl).2.2.2.2
      [(natFieldSem (FieldDecl.mk ("id") [Attr.partitionKey]), 7),
        (natFieldSem (FieldDecl.mk ("created")
          [Attr.sortKey, Attr.rename ("actualName")]), 8)]
      (natFieldSem (FieldDecl.mk ("id") [Attr.partitionKey]), 7) rfl rfl

/-- C9: when the map holds, for each field, a convertible entry under its
effective external name (the names pairwise distinct so each field has its
own entry), the generated `from_attrs` succeeds, and its result is unchanged
by adding arbitrary extra entries under names matching no field — unknown
attribute-map keys are silently ignored, never an error. -/
theorem c9_unknown_keys_ignored {V : Type} (zf : List (FieldSem V × V))
    (attrs : Attributes) (extra : List (String × AttributeValue))
    (hnd : (zf.map fun g => deser_name g.1.decl).Nodup)
    (hpres : ∀ fv ∈ zf, ∃ a,
      Attributes.lookup attrs (deser_name fv.1.decl) = some a ∧
        fv.1.from_attr a = .ok fv.2)
    (hextra : ∀ kv ∈ extra, ∀ fv ∈ zf, kv.1 ≠ deser_name fv.1.decl) :
    from_attrs (zf.map Prod.fst) attrs = .ok (zf.map Prod.snd) ∧
      from_attrs (zf.map Prod.fst) (insert_many attrs extra) =
        .ok (zf.map Prod.snd) := by
  have hpres2 : ∀ fv ∈ zf, ∃ a,
      Attributes.lookup (insert_many attrs extra) (deser_name fv.1.decl) = some a ∧
        fv.1.from_attr a = .ok fv.2 := by
    intro fv hfv
    obtain ⟨a, hla, hca⟩ := hpres fv hfv
    refine ⟨a, ?_, hca⟩
    rw [lookup_insert_many_notin extra attrs _ fun kv hkv => hextra kv hkv fv hfv, hla]
  obtain ⟨m1, hm1⟩ := from_attrs_aux_present zf attrs hnd hpres
  obtain ⟨m2, hm2⟩ := from_attrs_aux_present zf (insert_many attrs extra) hnd hpres2
  constructor
  · simp [from_attrs, hm1]
  · simp [from_attrs, hm2]

/-- Witness for C9: a one-field record decodes the same from its own map and
from that map extended with two unrelated entries. -/
theorem c9_unknown_keys_ignored_witness :
    from_attrs [natFieldSem (FieldDecl.mk ("id") [Attr.partitionKey])]
        [(("id"), AttributeValue.mk (some [7]) none none none none none none none none none)] =
      .ok [7] ∧
    from_attrs [natFieldSem (FieldDecl.mk ("id") [Attr.partitionKey])]
        (insert_many
          [(("id"), AttributeValue.mk (some [7]) none none none none none none none none none)]
          [(("zzz"), string_attr ("junk")), (("w"), AttributeValue.dfault)]) =
      .ok [7] :=
  c9_unknown_keys_ignored
    [(natFieldSem (FieldDecl.mk ("id") [Attr.partitionKey]), 7)]
    [(("id"), AttributeValue.mk (some [7]) none none none none none none none none none)]
    [(("zzz"), string_attr ("junk")), (("w"), AttributeValue.dfault)]
    (by decide)
    (by
      intro fv hfv
      rcases List.mem_singleton.mp hfv with rfl
      exact ⟨AttributeValue.mk (some [7]) none none none none none none none none none,
        rfl, rfl⟩)
    (by
      intro kv hkv fv hfv
      rcases List.mem_singleton.mp hfv with rfl
      rcases List.mem_cons.mp hkv with rfl | hkv
      · decide
      · rcases List.mem_singleton.mp hkv with rfl
        decide)

theorem filter_map_comm {α β : Type} (f : α → β) (p : β → Bool) (l : List α) :
    (l.map f).filter p = (l.filter fun a => p (f a)).map f := by
  induction l with
  | nil => rfl
  | cons a t ih =>
    simp only [List.map, List.filter]
    cases h : p (f a)
    · exact ih
    · exact congrArg (List.cons (f a)) ih

/-- C10: for a record with exactly one partition-key field and more than one
sort-key-annotated field, item code generation still succeeds (sort-key
cardinality is never validated); the generated key struct holds exactly the
partition key and the first sort-key field in declaration order, the key
extraction map holds exactly their two entries, and a later sort-key field
appears in neither (under its own distinct name it is absent from the key
map, i.e. treated as a plain field in those paths). -/
theorem c10_extra_sort_keys {V : Type} (name : String)
    (zf : List (FieldSem V × V)) (pf s1 s2 : FieldSem V × V)
    (srest : List (FieldSem V × V))
    (hpk : zf.filter (fun g => is_partition_key g.1.decl) = [pf])
    (hsk : zf.filter (fun g => is_sort_key g.1.decl) = s1 :: s2 :: srest) :
    (∃ g, make_dynomite_item name (zf.map fun g => g.1.decl) = .ok g) ∧
      key_struct_fields (zf.map fun g => g.1.decl) = some [pf.1.decl, s1.1.decl] ∧
      ∃ km, key_map zf = some km ∧
        km = Attributes.insert
            (Attributes.insert [] (deser_name pf.1.decl) (pf.1.into_attr pf.2))
            (deser_name s1.1.decl) (s1.1.into_attr s1.2) ∧
        (deser_name s2.1.decl ≠ deser_name pf.1.decl →
          deser_name s2.1.decl ≠ deser_name s1.1.decl →
          Attributes.lookup km (deser_name s2.1.decl) = none) := by
  have hfilter_pk : ((zf.map fun g => g.1.decl).filter is_partition_key) = [pf.1.decl] := by
    rw [filter_map_comm, hpk]
    rfl
  have hfilter_sk : ((zf.map fun g => g.1.decl).filter is_sort_key) =
      s1.1.decl :: s2.1.decl :: (srest.map fun g => g.1.decl) := by
    rw [filter_map_comm, hsk]
    rfl
  have hcount : partition_key_count (zf.map fun g => g.1.decl) = 1 := by
    rw [partition_key_count, hfilter_pk]
    rfl
  have hfind_pk_decl : (zf.map fun g => g.1.decl).find? is_partition_key =
      some pf.1.decl := by
    rw [find?_eq_head?_filter, hfilter_pk]
    rfl
  have hfind_sk_decl : (zf.map fun g => g.1.decl).find? is_sort_key =
      some s1.1.decl := by
    rw [find?_eq_head?_filter, hfilter_sk]
    rfl
  have hfind_pk : zf.find? (fun g => is_partition_key g.1.decl) = some pf := by
    rw [find?_eq_head?_filter, hpk]
    rfl
  have hfind_sk : zf.find? (fun g => is_sort_key g.1.decl) = some s1 := by
    rw [find?_eq_head?_filter, hsk]
    rfl
  refine ⟨?_, ?_, ?_⟩
  · rw [make_dynomite_item, if_pos hcount]
    exact ⟨_, rfl⟩
  · rw [key_struct_fields, hfind_pk_decl, Option.map_some', hfind_sk_decl]
  · refine ⟨_, ?_, rfl, ?_⟩
    · rw [key_map, hfind_pk, Option.map_some']
      simp only [hfind_sk]
    · intro hne_pk hne_s1
      rw [lookup_insert, if_neg hne_s1, lookup_insert, if_neg hne_pk]
      rfl

/-- Witness for C10 on the record `{id (partition), s1 (sort), s2 (sort)}`:
generation succeeds, the key struct holds `id` and `s1` only, and the key
map binds `id` and `s1` but not `s2`. -/
theorem c10_extra_sort_keys_witness :
    (∃ g, make_dynomite_item ("Foo")
        [FieldDecl.mk ("id") [Attr.partitionKey], FieldDecl.mk ("s1") [Attr.sortKey],
          FieldDecl.mk ("s2") [Attr.sortKey]] = .ok g) ∧
      key_struct_fields
          [FieldDecl.mk ("id") [Attr.partitionKey], FieldDecl.mk ("s1") [Attr.sortKey],
            FieldDecl.mk ("s2") [Attr.sortKey]] =
        some [FieldDecl.mk ("id") [Attr.partitionKey], FieldDecl.mk ("s1") [Attr.sortKey]] ∧
      ∃ km, key_map
            [(natFieldSem (FieldDecl.mk ("id") [Attr.partitionKey]), 7),
              (natFieldSem (FieldDecl.mk ("s1") [Attr.sortKey]), 8),
              (natFieldSem (FieldDecl.mk ("s2") [Attr.sortKey]), 9)] =
          some km ∧
        Attributes.lookup km ("s2") = none := by
  obtain ⟨h1, h2, km, hkm, hkmeq, hlook⟩ := c10_extra_sort_keys ("Foo")
    [(natFieldSem (FieldDecl.mk ("id") [Attr.partitionKey]), 7),
      (natFieldSem (FieldDecl.mk ("s1") [Attr.sortKey]), 8),
      (natFieldSem (FieldDecl.mk ("s2") [Attr.sortKey]), 9)]
    (natFieldSem (FieldDecl.mk ("id") [Attr.partitionKey]), 7)
    (natFieldSem (FieldDecl.mk ("s1") [Attr.sortKey]), 8)
    (natFieldSem (FieldDecl.mk ("s2") [Attr.sortKey]), 9)
    [] rfl rfl
  exact ⟨h1, h2, km, hkm, hlook (by decide) (by decide)⟩

end Dynomite
